import Mathlib

/-!
Verification development for the openclaw-serverchan-bot channel plugin.

The TypeScript sources are embedded shallowly:

* JavaScript values reaching the webhook parser are modelled by the
  inductive type `JSVal` (numbers are modelled as `Int`; the code only
  ever tests `typeof x === "number"` and copies the value through, so no
  floating-point behaviour is relevant to the claims).
* HTTP header records (`Record<string, string | string[] | undefined>`)
  are modelled as association lists `List (String × HVal)`; property
  lookup is first-match, absence yields `none` (JS `undefined`).
* The process-wide webhook registry (`Map<string, WebhookTarget[]>`) is
  modelled as an association list preserving insertion order, with
  `mapSet` / `mapGet` / `mapDelete` mirroring `Map.set` / `get` /
  `delete`.  JavaScript object reference identity of registered targets
  (each `register` call allocates a fresh `{...target}` object and the
  unregister closure removes entries by `!==`) is modelled by a `tag`
  field on `WebhookTarget`.
* The polling loop body is embedded as a pure step function from the
  fetch outcome of the iteration to the new cursor plus the list of
  observable actions (update callbacks, error logs, sleeps), and the
  loop itself as fuel-indexed recursion over an abort schedule.
-/

set_option maxRecDepth 4096

namespace ServerChanBot

/-- Model of a JavaScript/JSON value as seen by `parseWebhookPayload`. -/
inductive JSVal where
  | jnull
  | jundef
  | jbool (b : Bool)
  | jnum (n : Int)
  | jstr (s : String)
  | jarr (elems : List JSVal)
  | jobj (fields : List (String × JSVal))

/-- Property access `o[k]` on a plain object: first binding wins, a
missing key yields JS `undefined`. -/
def jsGet (fields : List (String × JSVal)) (k : String) : JSVal :=
  match fields.find? (fun p => p.1 == k) with
  | some p => p.2
  | none => JSVal.jundef

/-- JavaScript truthiness restricted to the values of `JSVal`. -/
def jsTruthy : JSVal → Bool
  | JSVal.jnull => false
  | JSVal.jundef => false
  | JSVal.jbool b => b
  | JSVal.jnum n => n != 0
  | JSVal.jstr s => s != ""
  | JSVal.jarr _ => true
  | JSVal.jobj _ => true

/-- Test for `typeof v === "number"`. -/
def jsIsNumber : JSVal → Bool
  | JSVal.jnum _ => true
  | _ => false

/-- Test for `typeof v === "string"`. -/
def jsIsString : JSVal → Bool
  | JSVal.jstr _ => true
  | _ => false

/-- Header value of `Record<string, string | string[] | undefined>`:
a string, an array of strings, or an explicit `undefined`. -/
inductive HVal where
  | hstr (s : String)
  | harr (elems : List String)
  | hundef
deriving DecidableEq, Repr

/-- Header records; lookup is exact-key, first binding wins. -/
abbrev Headers := List (String × HVal)

/-- Exact-key property lookup on a header record (`headers[k]`). -/
def headerLookup (h : Headers) (k : String) : Option HVal :=
  match h.find? (fun p => p.1 == k) with
  | some p => some p.2
  | none => none

/-- Embedding of the lookup
`headers["x-sc3bot-webhook-secret"] ?? headers["X-Sc3Bot-Webhook-Secret"]`
from `verifyWebhookSecret` (src/unnamed/part_002): the `??` operator
falls through on a missing key and on an explicit `undefined` value. -/
def headerSecretRaw (h : Headers) : Option HVal :=
  match headerLookup h "x-sc3bot-webhook-secret" with
  | some HVal.hundef => headerLookup h "X-Sc3Bot-Webhook-Secret"
  | none => headerLookup h "X-Sc3Bot-Webhook-Secret"
  | some v => some v

/-- Embedding of
`const secretValue = Array.isArray(secret) ? secret[0] : secret`:
array values contribute their first element (`undefined` when empty). -/
def headerSecretValue (h : Headers) : Option String :=
  match headerSecretRaw h with
  | some (HVal.hstr s) => some s
  | some (HVal.harr elems) => elems.head?
  | some HVal.hundef => none
  | none => none

/-- Embedding of `verifyWebhookSecret` (src/unnamed/part_002, lines
222-229): resolve the secret header value and compare it with `===`
against the expected secret (`undefined === expectedSecret` is false
because `expectedSecret` is a string). -/
def verifyWebhookSecret (h : Headers) (expectedSecret : String) : Bool :=
  headerSecretValue h == some expectedSecret

/-- Model of JavaScript `String.prototype.trim` on the character list
of a string (Lean's own `String.trim` is built on byte positions that
the kernel cannot evaluate, so the JS operation is embedded at the
character level instead). -/
def jsTrim (s : String) : String :=
  String.mk (((s.data.dropWhile Char.isWhitespace).reverse.dropWhile
    Char.isWhitespace).reverse)

/-- Embedding of `normalizeWebhookPath` (src/src/channel.ts, lines
92-102): trim, force a leading slash, strip a trailing slash except on
the root path.  The JS operations `startsWith "/"`, `endsWith "/"`,
`length` and `slice(0, -1)` are modelled on the character list. -/
def normalizeWebhookPath (raw : String) : String :=
  let trimmed := jsTrim raw
  if trimmed = "" then "/"
  else
    let withSlash := if trimmed.data.head? == some '/' then trimmed else "/" ++ trimmed
    if withSlash.data.length > 1 && withSlash.data.getLast? == some '/' then
      String.mk withSlash.data.dropLast
    else withSlash

/-- A webhook target as stored in the registry.  Only the fields the
claims inspect are carried (`accountId` stands for the owning resolved
account, `path` and `secret` as in the source).  The `tag` field models
JavaScript object identity: `registerServerChanBotWebhookTarget` spreads
the argument into a fresh object, and its unregister closure removes
entries by reference inequality (`entry !== normalizedTarget`). -/
structure WebhookTarget where
  accountId : String
  path : String
  secret : Option String
  tag : Nat
deriving DecidableEq, Repr

/-- Truthiness of `target.secret` (a `string | undefined` in the
source): `undefined` and the empty string are falsy. -/
def secretTruthy : Option String → Bool
  | none => false
  | some s => s != ""

/-- Embedding of `selectWebhookTarget` (src/src/channel.ts, lines
174-199). -/
def selectWebhookTarget (targets : List WebhookTarget) (headers : Headers) :
    Option WebhookTarget :=
  match targets with
  | [only] =>
    if !(secretTruthy only.secret) then some only
    else if verifyWebhookSecret headers (only.secret.getD "") then some only
    else none
  | _ =>
    match targets.find?
        (fun t => secretTruthy t.secret && verifyWebhookSecret headers (t.secret.getD "")) with
    | some t => some t
    | none =>
      match targets.filter (fun t => !(secretTruthy t.secret)) with
      | [t] => some t
      | _ => none

/-- The `chat` sub-object of a message (`{ id: number; type?: string }`). -/
structure SCChat where
  id : Int
  chatType : Option String
deriving DecidableEq, Repr

/-- The `from` sub-object of a message (only its `id` is read). -/
structure SCSender where
  id : Int
deriving DecidableEq, Repr

/-- Embedding of the `ServerChanMessage` shape (src/unnamed/part_002).
The TypeScript field `from` is named `fromSender` here because `from` is
a reserved word in Lean. -/
structure ServerChanMessage where
  message_id : Int
  chat_id : Option Int
  chat : Option SCChat
  fromSender : Option SCSender
  text : String
  date : Option Int
deriving DecidableEq, Repr

/-- Embedding of the `ServerChanUpdate` shape (src/unnamed/part_002). -/
structure ServerChanUpdate where
  update_id : Int
  message : ServerChanMessage
deriving DecidableEq, Repr

/-- Embedding of `parseWebhookPayload` (src/unnamed/part_002, lines
173-217).  Non-object bodies (including `null`, primitives and arrays,
whose string-keyed property reads all yield `undefined`) fall to `none`
exactly as the source returns `null`.  When the message `chat` value is
an object whose `id` is not a number while `chat_id` is numeric, the
source's unchecked cast stores that object in the result; the model
stores `none` there — no claim inspects the result's `chat` field. -/
def parseWebhookPayload (body : JSVal) : Option ServerChanUpdate :=
  match body with
  | JSVal.jobj payload =>
    match jsGet payload "ok" with
    | JSVal.jbool true =>
      match jsGet payload "update_id", jsGet payload "message" with
      | JSVal.jnum updateId, JSVal.jobj msg =>
        let chatVal := jsGet msg "chat"
        let chatId : JSVal :=
          match jsGet msg "chat_id" with
          | JSVal.jnum n => JSVal.jnum n
          | _ =>
            match chatVal with
            | JSVal.jobj cf => jsGet cf "id"
            | JSVal.jarr _ => JSVal.jundef
            | _ => JSVal.jundef
        match jsGet msg "message_id", chatId, jsGet msg "text" with
        | JSVal.jnum mid, JSVal.jnum cid, JSVal.jstr t =>
          some
            { update_id := updateId
              message :=
                { message_id := mid
                  chat_id := some cid
                  chat :=
                    match chatVal with
                    | JSVal.jobj cf =>
                      match jsGet cf "id" with
                      | JSVal.jnum i =>
                        some
                          { id := i
                            chatType :=
                              match jsGet cf "type" with
                              | JSVal.jstr ty => some ty
                              | _ => none }
                      | _ => none
                    | _ => none
                  fromSender := none
                  text := t
                  date :=
                    match jsGet msg "date" with
                    | JSVal.jnum d => some d
                    | _ => none } }
        | _, _, _ => none
      | _, _ => none
    | _ => none
  | _ => none

/-- Shape predicate for the webhook body, written from the claim's
words with the strict reading of the ok flag (the value must be the
boolean `true`, as the source's `payload.ok !== true` check demands):
an object with `ok === true`, a numeric `update_id`, and a `message`
object with numeric `message_id`, string `text`, and a chat identifier
from the direct numeric `chat_id` field if present, else the numeric
`id` of a nested `chat` object. -/
def strictParseShape (v : JSVal) : Bool :=
  match v with
  | JSVal.jobj payload =>
    (match jsGet payload "ok" with
     | JSVal.jbool true => true
     | _ => false)
    && jsIsNumber (jsGet payload "update_id")
    && (match jsGet payload "message" with
        | JSVal.jobj msg =>
          jsIsNumber (jsGet msg "message_id")
          && jsIsString (jsGet msg "text")
          && (match jsGet msg "chat_id" with
              | JSVal.jnum _ => true
              | _ =>
                match jsGet msg "chat" with
                | JSVal.jobj cf => jsIsNumber (jsGet cf "id")
                | _ => false)
        | _ => false)
  | _ => false

/-- Shape predicate for the webhook body exactly as claim C5 words it:
identical to `strictParseShape` except that the `ok` flag is only
required to be truthy. -/
def claimedParseShape (v : JSVal) : Bool :=
  match v with
  | JSVal.jobj payload =>
    jsTruthy (jsGet payload "ok")
    && jsIsNumber (jsGet payload "update_id")
    && (match jsGet payload "message" with
        | JSVal.jobj msg =>
          jsIsNumber (jsGet msg "message_id")
          && jsIsString (jsGet msg "text")
          && (match jsGet msg "chat_id" with
              | JSVal.jnum _ => true
              | _ =>
                match jsGet msg "chat" with
                | JSVal.jobj cf => jsIsNumber (jsGet cf "id")
                | _ => false)
        | _ => false)
  | _ => false

/-- Builder for a well-formed webhook update body after JSON
round-tripping.  `JSON.parse (JSON.stringify x)` is the identity on
plain objects of numbers, strings and booleans, so the serialized form
of a well-formed update is modelled directly as this `JSVal`.  The chat
identifier is carried either as a direct `chat_id` field or as a nested
`chat` object, selected by `nested`. -/
def mkWellFormedBody (uid mid cid : Int) (text : String) (nested : Bool) : JSVal :=
  JSVal.jobj
    [("ok", JSVal.jbool true),
     ("update_id", JSVal.jnum uid),
     ("message",
      JSVal.jobj
        ([("message_id", JSVal.jnum mid)]
          ++ (if nested then [("chat", JSVal.jobj [("id", JSVal.jnum cid)])]
              else [("chat_id", JSVal.jnum cid)])
          ++ [("text", JSVal.jstr text)]))]

/-- Chat-identifier extraction of `processServerChanBotUpdate`
(src/src/channel.ts, lines 226-229):
`update.message.chat?.id ?? update.message.chat_id ?? update.message.from?.id`. -/
def updateChatId (m : ServerChanMessage) : Option Int :=
  (m.chat.map SCChat.id).orElse
    (fun _ => m.chat_id.orElse (fun _ => m.fromSender.map SCSender.id))

/-- Chat identifier as the string the Update Processor uses
(`String(updateChatId)` in src/src/channel.ts, line 234). -/
def updateChatIdString (m : ServerChanMessage) : Option String :=
  (updateChatId m).map toString

/-! Registry model: `Map<string, WebhookTarget[]>` as an insertion-order
association list, with the three `Map` operations the source uses. -/

/-- Registry state of `webhookTargets` (src/src/channel.ts, line 90). -/
abbrev Registry := List (String × List WebhookTarget)

/-- Lookup `Map.get`: the first binding with the key (bindings built by
`mapSet` have unique keys, as a JS `Map` does). -/
def mapGet : Registry → String → Option (List WebhookTarget)
  | [], _ => none
  | p :: m, k => if p.1 == k then some p.2 else mapGet m k

/-- Update or insert `Map.set`: replaces the value of an existing
binding in place, appends a new binding last, as a JS `Map` does. -/
def mapSet : Registry → String → List WebhookTarget → Registry
  | [], k, v => [(k, v)]
  | p :: m, k, v => if p.1 == k then (k, v) :: m else p :: mapSet m k v

/-- Removal `Map.delete`. -/
def mapDelete : Registry → String → Registry
  | [], _ => []
  | p :: m, k => if p.1 == k then mapDelete m k else p :: mapDelete m k

/-- Targets registered at a path (the `?? []` default of the source). -/
def targetsAt (m : Registry) (k : String) : List WebhookTarget :=
  (mapGet m k).getD []

/-- Embedding of the body of `registerServerChanBotWebhookTarget`
(src/src/channel.ts, lines 201-206): normalize the path, store a fresh
instance with the normalized path appended to the existing list. -/
def applyRegister (m : Registry) (t : WebhookTarget) : Registry :=
  let key := normalizeWebhookPath t.path
  let normalizedTarget := { t with path := key }
  mapSet m key (targetsAt m key ++ [normalizedTarget])

/-- Embedding of the unregister closure returned by
`registerServerChanBotWebhookTarget` (src/src/channel.ts, lines
207-214) for the registration of `t`: filter out that instance, delete
the key when the list becomes empty. -/
def applyUnregister (m : Registry) (t : WebhookTarget) : Registry :=
  let key := normalizeWebhookPath t.path
  let normalizedTarget := { t with path := key }
  let updated := (targetsAt m key).filter (fun entry => entry != normalizedTarget)
  if updated.length > 0 then mapSet m key updated else mapDelete m key

/-- Abbreviation for the `key` local of the unregister closure
(src/src/channel.ts, line 202): the normalized registration path. -/
def unregKey (t : WebhookTarget) : String := normalizeWebhookPath t.path

/-- Abbreviation for the `normalizedTarget` local of the register call
(src/src/channel.ts, line 203): the stored instance. -/
def unregTarget (t : WebhookTarget) : WebhookTarget := { t with path := unregKey t }

/-- Abbreviation for the `updated` local of the unregister closure
(src/src/channel.ts, line 208): the surviving targets at the path. -/
def unregRemaining (m : Registry) (t : WebhookTarget) : List WebhookTarget :=
  (targetsAt m (unregKey t)).filter (fun entry => entry != unregTarget t)

/-- One registry operation: a registration, or an invocation of the
unregister closure belonging to the registration of a target. -/
inductive RegOp where
  | reg (t : WebhookTarget)
  | unreg (t : WebhookTarget)

/-- Run a sequence of registry operations from a start state. -/
def runRegOps (ops : List RegOp) (m : Registry) : Registry :=
  ops.foldl
    (fun acc op =>
      match op with
      | RegOp.reg t => applyRegister acc t
      | RegOp.unreg t => applyUnregister acc t)
    m

/-- Decidable registry invariant: every path key maps to a non-empty
target list, and every stored target's `path` field equals the registry
key it is stored under (which `applyRegister` always produces with
`normalizeWebhookPath`). -/
def regInvB (m : Registry) : Bool :=
  m.all (fun p => !p.2.isEmpty && p.2.all (fun t => t.path == p.1))

/-! Polling model. -/

/-- Response shape of `getUpdates` (`ServerChanUpdatesResponse`). -/
structure ServerChanUpdatesResponse where
  ok : Bool
  result : List ServerChanUpdate
deriving DecidableEq, Repr

/-- HTTP-level outcome of the `fetch` inside `serverChanBotGetUpdates`:
a response with a 2xx flag and a decoded body, or a network error that
rejects the promise. -/
inductive HttpOutcome where
  | response (httpOk : Bool) (body : ServerChanUpdatesResponse)
  | netError
deriving Repr

/-- Outcome of awaiting `serverChanBotGetUpdates` at the call site in
the polling loop: a resolved value or a thrown error. -/
inductive FetchResult where
  | value (r : ServerChanUpdatesResponse)
  | thrown
deriving Repr

/-- Embedding of `serverChanBotGetUpdates` (src/unnamed/part_002, lines
135-168): a non-2xx response is translated into `{ ok: false, result:
[] }` and returned normally; a network error propagates as a thrown
exception to the caller. -/
def serverChanBotGetUpdates (o : HttpOutcome) : FetchResult :=
  match o with
  | HttpOutcome.response true body => FetchResult.value body
  | HttpOutcome.response false _ =>
    FetchResult.value { ok := false, result := [] }
  | HttpOutcome.netError => FetchResult.thrown

/-- Observable actions of one polling-loop iteration. -/
inductive PollAction where
  | onUpdate (u : ServerChanUpdate)
  | logError
  | sleep (ms : Nat)
deriving DecidableEq, Repr

/-- Embedding of the body of the `while` loop in
`monitorServerChanBotPolling` (src/src/channel.ts, lines 520-539):
given the current offset and the iteration's fetch result, produce the
new offset and the actions the iteration performs.  A resolved response
with `ok` and a non-empty result advances the offset to the last
update's `update_id + 1` and hands each update to `onUpdate`; any other
resolved response does nothing; a thrown error is caught, logged, and
followed by a fixed 5000 ms sleep. -/
def pollIterate (offset : Int) (f : FetchResult) : Int × List PollAction :=
  match f with
  | FetchResult.thrown => (offset, [PollAction.logError, PollAction.sleep 5000])
  | FetchResult.value r =>
    if r.ok && r.result.length > 0 then
      (r.result.foldl (fun _ u => u.update_id + 1) offset,
       r.result.map PollAction.onUpdate)
    else (offset, [])

/-- Fuel-indexed embedding of the `while (!abortSignal.aborted)` loop of
`monitorServerChanBotPolling` (src/src/channel.ts, lines 508-540).
`aborted i` is the state of the abort signal observed at the top of
iteration `i`, `fetch i` the fetch result of iteration `i`.  The result
is the final offset and `true` when the loop exited because the signal
was aborted, `false` when the fuel ran out with the loop still
running. -/
def monitorServerChanBotPolling (aborted : Nat → Bool) (fetch : Nat → FetchResult) :
    Nat → Nat → Int → Int × Bool
  | 0, _, offset => (offset, false)
  | fuel + 1, i, offset =>
    if aborted i then (offset, true)
    else monitorServerChanBotPolling aborted fetch fuel (i + 1) (pollIterate offset (fetch i)).1

/-! Account listing and start-mode decision. -/

/-- Modelled from the spec: the well-known default account identifier
(`DEFAULT_ACCOUNT_ID` is imported from the external `openclaw/plugin-sdk`
package, which is not part of this repository; the spec only requires it
to be a fixed non-empty identifier). -/
def DEFAULT_ACCOUNT_ID : String := "default"

/-- Configuration view needed by `listServerChanBotAccountIds`: whether
the `channels["serverchan-bot"]` section exists, and if so the key list
of its `accounts` object (in insertion order) when that value is a
present object — `none` stands for a missing or non-object `accounts`
value. -/
structure ChannelSectionView where
  accountsKeys : Option (List String)

/-- Embedding of `listServerChanBotAccountIds` (src/src/channel.ts,
lines 452-475). -/
def listServerChanBotAccountIds (sectionView : Option ChannelSectionView) : List String :=
  match sectionView with
  | none => [DEFAULT_ACCOUNT_ID]
  | some sec =>
    match sec.accountsKeys with
    | none => [DEFAULT_ACCOUNT_ID]
    | some keys =>
      let ids := keys.filter (fun id => jsTrim id != "")
      if ids.isEmpty then [DEFAULT_ACCOUNT_ID]
      else if ids.contains DEFAULT_ACCOUNT_ID then ids
      else DEFAULT_ACCOUNT_ID :: ids

/-- The webhook-related fields of a resolved account's configuration,
as consumed by the mode decision in `startAccount`. -/
structure AccountModeConfig where
  webhookUrl : Option String
  webhookPath : Option String
  webhookSecret : Option String
  pollingEnabled : Option Bool

/-- Truthiness of `field?.trim()` for an optional string field. -/
def nonBlank : Option String → Bool
  | none => false
  | some s => jsTrim s != ""

/-- Embedding of `hasWebhookConfig` (src/src/channel.ts, lines
748-751). -/
def hasWebhookConfig (a : AccountModeConfig) : Bool :=
  nonBlank a.webhookUrl || nonBlank a.webhookPath || nonBlank a.webhookSecret

/-- Embedding of `shouldPoll` (src/src/channel.ts, line 756):
`typeof pollingEnabled === "boolean" ? pollingEnabled : !hasWebhookConfig`. -/
def shouldPoll (a : AccountModeConfig) : Bool :=
  match a.pollingEnabled with
  | some b => b
  | none => !hasWebhookConfig a

/-- Embedding of `wantsWebhook` (src/src/channel.ts, line 757):
`typeof pollingEnabled === "boolean" ? !pollingEnabled : hasWebhookConfig`. -/
def wantsWebhook (a : AccountModeConfig) : Bool :=
  match a.pollingEnabled with
  | some b => !b
  | none => hasWebhookConfig a

/-- Webhook body whose `ok` flag is the truthy number `1` rather than
the boolean `true`, with all remaining fields well-formed. -/
def truthyOkBody : JSVal :=
  JSVal.jobj
    [("ok", JSVal.jnum 1),
     ("update_id", JSVal.jnum 7),
     ("message",
      JSVal.jobj
        [("message_id", JSVal.jnum 1),
         ("chat_id", JSVal.jnum 42),
         ("text", JSVal.jstr "hi")])]

/-- The update of the polling happy-path scenario:
`{update_id: 5, message: {message_id: 1, chat_id: 42, text: "hi"}}`. -/
def scenarioUpdate : ServerChanUpdate :=
  { update_id := 5
    message :=
      { message_id := 1, chat_id := some 42, chat := none, fromSender := none,
        text := "hi", date := none } }

/-! Theorems. -/

/-- C5 counterexample: a body with a truthy (but non-boolean) `ok` flag
and otherwise well-formed fields satisfies the claimed acceptance shape,
yet `parseWebhookPayload` returns `null`: the source requires
`payload.ok` to be the boolean `true` (`payload.ok !== true`), not
merely truthy. -/
theorem parseWebhookPayload_rejects_truthy_ok :
    claimedParseShape truthyOkBody = true ∧ parseWebhookPayload truthyOkBody = none := by
  constructor
  · rfl
  · rfl

/-- C5 (amended): `parseWebhookPayload` is a total function (it is
defined for every `JSVal` and never throws), and it returns an update
exactly when the body is an object whose `ok` flag is strictly the
boolean `true`, whose `update_id` is numeric, and whose `message` is an
object with numeric `message_id`, string `text`, and a numeric chat
identifier taken from the direct `chat_id` field when that is numeric,
else from the nested `chat` object's `id`; on any other shape it
returns `null`. -/
theorem parseWebhookPayload_isSome_iff_strictShape (v : JSVal) :
    (parseWebhookPayload v).isSome = strictParseShape v := by
  cases v <;> try rfl
  case jobj payload =>
  simp only [parseWebhookPayload, strictParseShape]
  cases hok : jsGet payload "ok" <;> try rfl
  case jbool b =>
  cases b <;> try rfl
  case true =>
  cases hu : jsGet payload "update_id" <;> try rfl
  case jnum uid =>
  cases hm : jsGet payload "message" <;> try rfl
  case jobj msg =>
  dsimp only
  cases hmid : jsGet msg "message_id" <;> try rfl
  case jnum mid =>
  cases hcid : jsGet msg "chat_id"
  case jnum cid => cases htext : jsGet msg "text" <;> rfl
  all_goals cases hchat : jsGet msg "chat"
  all_goals try (cases htext : jsGet msg "text" <;> rfl)
  all_goals rename_i cf
  all_goals dsimp only
  all_goals cases hid : jsGet cf "id" <;> cases htext : jsGet msg "text" <;> rfl

/-- C6: a well-formed webhook update body — `ok` set, numeric
`update_id`, message with numeric `message_id`, string `text`, and the
chat identifier carried either as `chat_id` or as `chat.id` — parses
back to the original `update_id`, `message_id`, chat identifier and
`text` after JSON round-tripping (serialization of such plain bodies is
modelled as the identity on `JSVal`). -/
theorem parseWebhookPayload_roundTrip (uid mid cid : Int) (text : String) (nested : Bool) :
    (parseWebhookPayload (mkWellFormedBody uid mid cid text nested)).map
        (fun u => (u.update_id, u.message.message_id, u.message.chat_id, u.message.text))
      = some (uid, mid, some cid, text) := by
  cases nested <;> rfl

/-- Helper: when no binding in the header record carries the key, the
lookup yields `none`. -/
theorem headerLookup_eq_none_of_forall (h : Headers) (k : String)
    (hk : ∀ p ∈ h, p.1 ≠ k) : headerLookup h k = none := by
  unfold headerLookup
  have hfind : h.find? (fun p => p.1 == k) = none := by
    rw [List.find?_eq_none]
    intro p hp
    simpa using hk p hp
  rw [hfind]

/-- C4 counterexample: a header record whose only binding is the secret
header name in a casing other than the two the source consults is not
found, so verification fails even though the value matches the expected
secret — the lookup is not case-insensitive. -/
theorem verifyWebhookSecret_not_caseInsensitive :
    verifyWebhookSecret [("X-SC3BOT-WEBHOOK-SECRET", HVal.hstr "s3cret")] "s3cret" = false
      ∧ "X-SC3BOT-WEBHOOK-SECRET".data.map Char.toLower = "x-sc3bot-webhook-secret".data := by
  constructor
  · rfl
  · decide

/-- C4 (amended): `verifyWebhookSecret` looks the header up under
exactly the two literal keys `x-sc3bot-webhook-secret` and (when the
first is absent or explicitly undefined) `X-Sc3Bot-Webhook-Secret` —
not under arbitrary casings — compares the resolved value by exact
string equality with the expected secret, and returns `false` when the
header is absent. -/
theorem verifyWebhookSecret_exact_lookup (h : Headers) (s : String) :
    (headerLookup h "x-sc3bot-webhook-secret" = none →
      headerLookup h "X-Sc3Bot-Webhook-Secret" = none →
      verifyWebhookSecret h s = false)
    ∧ (∀ v, headerLookup h "x-sc3bot-webhook-secret" = some (HVal.hstr v) →
        (verifyWebhookSecret h s = true ↔ v = s))
    ∧ (∀ v, headerLookup h "x-sc3bot-webhook-secret" = none →
        headerLookup h "X-Sc3Bot-Webhook-Secret" = some (HVal.hstr v) →
        (verifyWebhookSecret h s = true ↔ v = s))
    ∧ ((∀ p ∈ h, p.1 ≠ "x-sc3bot-webhook-secret" ∧ p.1 ≠ "X-Sc3Bot-Webhook-Secret") →
        verifyWebhookSecret h s = false) := by
  refine ⟨?_, ?_, ?_, ?_⟩
  · intro h1 h2
    simp [verifyWebhookSecret, headerSecretValue, headerSecretRaw, h1, h2]
  · intro v hv
    simp [verifyWebhookSecret, headerSecretValue, headerSecretRaw, hv]
  · intro v h1 hv
    simp [verifyWebhookSecret, headerSecretValue, headerSecretRaw, h1, hv]
  · intro hall
    have h1 : headerLookup h "x-sc3bot-webhook-secret" = none :=
      headerLookup_eq_none_of_forall h _ (fun p hp => (hall p hp).1)
    have h2 : headerLookup h "X-Sc3Bot-Webhook-Secret" = none :=
      headerLookup_eq_none_of_forall h _ (fun p hp => (hall p hp).2)
    simp [verifyWebhookSecret, headerSecretValue, headerSecretRaw, h1, h2]

/-- Witness for the amended C4 theorem at concrete header records. -/
theorem verifyWebhookSecret_exact_lookup_witness :
    verifyWebhookSecret [("content-type", HVal.hstr "application/json")] "sec" = false
      ∧ (verifyWebhookSecret [("x-sc3bot-webhook-secret", HVal.hstr "sec")] "sec" = true
          ↔ "sec" = "sec")
      ∧ (verifyWebhookSecret [("X-Sc3Bot-Webhook-Secret", HVal.hstr "sec")] "sec" = true
          ↔ "sec" = "sec")
      ∧ verifyWebhookSecret ([] : Headers) "sec" = false :=
  ⟨(verifyWebhookSecret_exact_lookup [("content-type", HVal.hstr "application/json")] "sec").2.2.2
      (by decide),
   (verifyWebhookSecret_exact_lookup [("x-sc3bot-webhook-secret", HVal.hstr "sec")] "sec").2.1
      "sec" (by rfl),
   (verifyWebhookSecret_exact_lookup [("X-Sc3Bot-Webhook-Secret", HVal.hstr "sec")] "sec").2.2.1
      "sec" (by rfl) (by rfl),
   (verifyWebhookSecret_exact_lookup ([] : Headers) "sec").1 (by rfl) (by rfl)⟩

/-- C1: on a path with two registered targets carrying distinct
non-empty secrets, a request whose secret header value equals the first
target's secret selects exactly that target — in either registration
order — and never the other one; the selected target carries the
account the Update Processor then runs with. -/
theorem selectWebhookTarget_distinct_secrets (t1 t2 : WebhookTarget) (h : Headers)
    (s1 s2 : String) (h1 : t1.secret = some s1) (h2 : t2.secret = some s2)
    (hs1 : s1 ≠ "") (hs2 : s2 ≠ "") (hne : s1 ≠ s2)
    (hheader : headerSecretValue h = some s1) :
    selectWebhookTarget [t1, t2] h = some t1
      ∧ selectWebhookTarget [t2, t1] h = some t1
      ∧ selectWebhookTarget [t1, t2] h ≠ some t2
      ∧ selectWebhookTarget [t2, t1] h ≠ some t2 := by
  have htne : t1 ≠ t2 := by
    intro he
    apply hne
    rw [he, h2] at h1
    exact (Option.some.inj h1).symm
  have b1 : (s1 != "") = true := by simpa using hs1
  have b2 : (s2 != "") = true := by simpa using hs2
  have b12 : (s1 == s2) = false := by simpa using hne
  have hsel1 : selectWebhookTarget [t1, t2] h = some t1 := by
    simp [selectWebhookTarget, List.find?, verifyWebhookSecret, secretTruthy, h1, h2,
      hheader, b1]
  have hsel2 : selectWebhookTarget [t2, t1] h = some t1 := by
    simp [selectWebhookTarget, List.find?, verifyWebhookSecret, secretTruthy, h1, h2,
      hheader, b1, b2, b12]
  refine ⟨hsel1, hsel2, ?_, ?_⟩
  · rw [hsel1]
    intro he
    exact htne (Option.some.inj he)
  · rw [hsel2]
    intro he
    exact htne (Option.some.inj he)

/-- Witness for the C1 theorem at concrete targets and headers. -/
theorem selectWebhookTarget_distinct_secrets_witness :
    selectWebhookTarget
        [{ accountId := "acct1", path := "/hook", secret := some "alpha", tag := 0 },
         { accountId := "acct2", path := "/hook", secret := some "beta", tag := 1 }]
        [("x-sc3bot-webhook-secret", HVal.hstr "alpha")]
      = some { accountId := "acct1", path := "/hook", secret := some "alpha", tag := 0 } :=
  (selectWebhookTarget_distinct_secrets
      { accountId := "acct1", path := "/hook", secret := some "alpha", tag := 0 }
      { accountId := "acct2", path := "/hook", secret := some "beta", tag := 1 }
      [("x-sc3bot-webhook-secret", HVal.hstr "alpha")]
      "alpha" "beta" rfl rfl (by decide) (by decide) (by decide) rfl).1

/-- C2 counterexample: a non-2xx poll response is translated by
`serverChanBotGetUpdates` into a normally returned `{ok: false,
result: []}` value, so the loop iteration performs no log and no
5-second sleep — it retries immediately, contradicting the claim that
every transport failure (including a non-2xx result) logs and sleeps
the fixed backoff. -/
theorem pollIterate_non2xx_no_backoff :
    pollIterate 0 (serverChanBotGetUpdates
        (HttpOutcome.response false { ok := true, result := [] }))
        = (0, [])
      ∧ PollAction.sleep 5000
          ∉ (pollIterate 0 (serverChanBotGetUpdates
              (HttpOutcome.response false { ok := true, result := [] }))).2
      ∧ PollAction.logError
          ∉ (pollIterate 0 (serverChanBotGetUpdates
              (HttpOutcome.response false { ok := true, result := [] }))).2 := by
  refine ⟨rfl, ?_, ?_⟩ <;> simp [pollIterate, serverChanBotGetUpdates]

/-- C2 (amended): only a thrown network error makes a polling iteration
log and sleep the fixed 5000 ms backoff before retrying; a non-2xx
result (surfaced as `{ok: false, result: []}`) neither logs nor sleeps
and the loop retries immediately; in both cases the iteration leaves
the cursor unchanged, and the loop never terminates while the
cancellation signal stays clear — it terminates exactly when the signal
fires at the top of an iteration. -/
theorem pollingLoop_backoff_and_termination :
    (∀ offset : Int,
      pollIterate offset (serverChanBotGetUpdates HttpOutcome.netError)
        = (offset, [PollAction.logError, PollAction.sleep 5000]))
    ∧ (∀ (offset : Int) (body : ServerChanUpdatesResponse),
        pollIterate offset (serverChanBotGetUpdates (HttpOutcome.response false body))
          = (offset, []))
    ∧ (∀ (aborted : Nat → Bool) (fetch : Nat → FetchResult) (fuel i : Nat) (offset : Int),
        (∀ j, aborted j = false) →
        (monitorServerChanBotPolling aborted fetch fuel i offset).2 = false)
    ∧ (∀ (aborted : Nat → Bool) (fetch : Nat → FetchResult) (fuel i : Nat) (offset : Int),
        aborted i = true →
        monitorServerChanBotPolling aborted fetch (fuel + 1) i offset = (offset, true)) := by
  refine ⟨fun _ => rfl, fun _ _ => rfl, ?_, ?_⟩
  · intro aborted fetch fuel
    induction fuel with
    | zero => intro i offset hab; rfl
    | succ n ih =>
      intro i offset hab
      simp only [monitorServerChanBotPolling, hab i, if_neg Bool.false_ne_true]
      exact ih (i + 1) (pollIterate offset (fetch i)).1 hab
  · intro aborted fetch fuel i offset hab
    simp [monitorServerChanBotPolling, hab]

/-- Witness for the amended C2 theorem at concrete loop data. -/
theorem pollingLoop_backoff_and_termination_witness :
    pollIterate 0 (serverChanBotGetUpdates HttpOutcome.netError)
        = (0, [PollAction.logError, PollAction.sleep 5000])
      ∧ pollIterate 0 (serverChanBotGetUpdates
          (HttpOutcome.response false { ok := true, result := [] })) = (0, [])
      ∧ (monitorServerChanBotPolling (fun _ => false) (fun _ => FetchResult.thrown) 3 0 0).2
          = false
      ∧ monitorServerChanBotPolling (fun _ => true) (fun _ => FetchResult.thrown) 1 0 0
          = (0, true) :=
  ⟨pollingLoop_backoff_and_termination.1 0,
   pollingLoop_backoff_and_termination.2.1 0 { ok := true, result := [] },
   pollingLoop_backoff_and_termination.2.2.1 (fun _ => false) (fun _ => FetchResult.thrown)
     3 0 0 (fun _ => rfl),
   pollingLoop_backoff_and_termination.2.2.2 (fun _ => true) (fun _ => FetchResult.thrown)
     0 0 0 rfl⟩

/-- C7: a successful poll returning the single update
`{update_id: 5, message: {message_id: 1, chat_id: 42, text: "hi"}}`
makes one loop iteration advance the cursor to `6` and hand exactly
that one update to the processing callback, and the Update Processor
derives the chat identifier string `"42"` for it; the chat identifier
fallback order is the nested chat object's id, then the direct
`chat_id` field, then the sender's id. -/
theorem pollingLoop_happyPath :
    pollIterate 0 (serverChanBotGetUpdates
        (HttpOutcome.response true { ok := true, result := [scenarioUpdate] }))
        = (6, [PollAction.onUpdate scenarioUpdate])
      ∧ updateChatIdString scenarioUpdate.message = some "42"
      ∧ (∀ (m : ServerChanMessage) (c : SCChat), m.chat = some c →
          updateChatId m = some c.id)
      ∧ (∀ (m : ServerChanMessage) (n : Int), m.chat = none → m.chat_id = some n →
          updateChatId m = some n)
      ∧ (∀ m : ServerChanMessage, m.chat = none → m.chat_id = none →
          updateChatId m = m.fromSender.map SCSender.id) := by
  refine ⟨rfl, rfl, ?_, ?_, ?_⟩
  · intro m c hc
    simp [updateChatId, hc, Option.orElse]
  · intro m n hc hcid
    simp [updateChatId, hc, hcid, Option.orElse]
  · intro m hc hcid
    simp [updateChatId, hc, hcid, Option.orElse]

/-- Witness for the C7 theorem: the fallback order evaluated at
concrete messages. -/
theorem pollingLoop_happyPath_witness :
    updateChatId
        { message_id := 1, chat_id := some 7, chat := some { id := 9, chatType := none },
          fromSender := none, text := "x", date := none } = some 9
      ∧ updateChatId
          { message_id := 1, chat_id := some 7, chat := none, fromSender := none,
            text := "x", date := none } = some 7
      ∧ updateChatId
          { message_id := 1, chat_id := none, chat := none, fromSender := some { id := 3 },
            text := "x", date := none } = some 3 :=
  ⟨pollingLoop_happyPath.2.2.1
      { message_id := 1, chat_id := some 7, chat := some { id := 9, chatType := none },
        fromSender := none, text := "x", date := none } { id := 9, chatType := none } rfl,
   pollingLoop_happyPath.2.2.2.1
      { message_id := 1, chat_id := some 7, chat := none, fromSender := none,
        text := "x", date := none } 7 rfl rfl,
   Eq.trans
     (pollingLoop_happyPath.2.2.2.2
        { message_id := 1, chat_id := none, chat := none, fromSender := some { id := 3 },
          text := "x", date := none } rfl rfl)
     rfl⟩

/-- C8: the poll-start and webhook-registration decisions of
`startAccount` are mutually exclusive and exhaustive
(`shouldPoll = !wantsWebhook` for every configuration); when
`pollingEnabled` is an explicit boolean it decides both (poll iff
`true`, webhook iff `false`); when it is unset, webhook mode is chosen
exactly when one of `webhookUrl`, `webhookPath`, `webhookSecret` is
configured non-blank, else polling is chosen. -/
theorem startAccount_mode_decision (a : AccountModeConfig) :
    (shouldPoll a = !wantsWebhook a)
    ∧ (∀ b, a.pollingEnabled = some b → shouldPoll a = b ∧ wantsWebhook a = !b)
    ∧ (a.pollingEnabled = none →
        wantsWebhook a
            = (nonBlank a.webhookUrl || nonBlank a.webhookPath || nonBlank a.webhookSecret)
          ∧ shouldPoll a
            = !(nonBlank a.webhookUrl || nonBlank a.webhookPath
                || nonBlank a.webhookSecret)) := by
  refine ⟨?_, ?_, ?_⟩
  · cases hpe : a.pollingEnabled <;> simp [shouldPoll, wantsWebhook, hpe]
  · intro b hb
    simp [shouldPoll, wantsWebhook, hb]
  · intro hn
    simp [shouldPoll, wantsWebhook, hasWebhookConfig, hn]

/-- Witness for the C8 theorem at concrete account configurations. -/
theorem startAccount_mode_decision_witness :
    (shouldPoll
          { webhookUrl := some "https://example.com/hook", webhookPath := none,
            webhookSecret := none, pollingEnabled := some true } = true
        ∧ wantsWebhook
            { webhookUrl := some "https://example.com/hook", webhookPath := none,
              webhookSecret := none, pollingEnabled := some true } = !true)
      ∧ (wantsWebhook
            { webhookUrl := none, webhookPath := some "/hook", webhookSecret := none,
              pollingEnabled := none } = true
          ∧ shouldPoll
              { webhookUrl := none, webhookPath := some "/hook", webhookSecret := none,
                pollingEnabled := none } = false) := by
  constructor
  · exact (startAccount_mode_decision
      { webhookUrl := some "https://example.com/hook", webhookPath := none,
        webhookSecret := none, pollingEnabled := some true }).2.1 true rfl
  · have h := (startAccount_mode_decision
      { webhookUrl := none, webhookPath := some "/hook", webhookSecret := none,
        pollingEnabled := none }).2.2 rfl
    exact ⟨Eq.trans h.1 (by decide), Eq.trans h.2 (by decide)⟩

/-- C3: `listServerChanBotAccountIds` on a configuration whose
multi-account section lists the keys `["other", "default"]` returns the
keys in configured order with the default identifier second, not first:
the code only prepends the default identifier when it is absent, so the
code's own comment (`Ensure default is first if present`) and the
claimed placed-first behaviour are violated; the single-default cases
behave as claimed. -/
theorem listAccountIds_default_not_first :
    listServerChanBotAccountIds (some { accountsKeys := some ["other", "default"] })
        = ["other", "default"]
      ∧ (listServerChanBotAccountIds
          (some { accountsKeys := some ["other", "default"] })).head?
          ≠ some DEFAULT_ACCOUNT_ID
      ∧ listServerChanBotAccountIds none = [DEFAULT_ACCOUNT_ID]
      ∧ listServerChanBotAccountIds (some { accountsKeys := none }) = [DEFAULT_ACCOUNT_ID] := by
  refine ⟨?_, ?_, ?_, ?_⟩ <;> decide

/-- Helper: looking up the key just set yields the new value. -/
theorem mapGet_mapSet_self (m : Registry) (k : String) (v : List WebhookTarget) :
    mapGet (mapSet m k v) k = some v := by
  induction m with
  | nil => simp [mapSet, mapGet]
  | cons p m ih =>
    by_cases hp : p.1 = k
    · simp [mapSet, mapGet, hp]
    · simp [mapSet, mapGet, hp, ih]

/-- Helper: setting one key leaves lookups of other keys unchanged. -/
theorem mapGet_mapSet_ne (m : Registry) (k q : String) (v : List WebhookTarget)
    (hq : q ≠ k) : mapGet (mapSet m k v) q = mapGet m q := by
  induction m with
  | nil => simp [mapSet, mapGet, Ne.symm hq]
  | cons p m ih =>
    by_cases hp : p.1 = k
    · simp [mapSet, mapGet, hp, Ne.symm hq]
    · simp [mapSet, mapGet, hp, ih]

/-- Helper: looking up a deleted key yields nothing. -/
theorem mapGet_mapDelete_self (m : Registry) (k : String) :
    mapGet (mapDelete m k) k = none := by
  induction m with
  | nil => rfl
  | cons p m ih =>
    by_cases hp : p.1 = k
    · simp [mapDelete, hp, ih]
    · simp [mapDelete, mapGet, hp, ih]

/-- Helper: deleting one key leaves lookups of other keys unchanged. -/
theorem mapGet_mapDelete_ne (m : Registry) (k q : String) (hq : q ≠ k) :
    mapGet (mapDelete m k) q = mapGet m q := by
  induction m with
  | nil => rfl
  | cons p m ih =>
    by_cases hp : p.1 = k
    · simp [mapDelete, mapGet, hp, ih, Ne.symm hq]
    · simp [mapDelete, mapGet, hp, ih]

/-- Helper: setting the same binding twice equals setting it once. -/
theorem mapSet_mapSet (m : Registry) (k : String) (v : List WebhookTarget) :
    mapSet (mapSet m k v) k v = mapSet m k v := by
  induction m with
  | nil => simp [mapSet]
  | cons p m ih =>
    by_cases hp : p.1 = k
    · simp [mapSet, hp]
    · simp [mapSet, hp, ih]

/-- Helper: deleting a key twice equals deleting it once. -/
theorem mapDelete_mapDelete (m : Registry) (k : String) :
    mapDelete (mapDelete m k) k = mapDelete m k := by
  induction m with
  | nil => rfl
  | cons p m ih =>
    by_cases hp : p.1 = k
    · simp [mapDelete, hp, ih]
    · simp [mapDelete, hp, ih]

/-- Helper: removing a fixed element from a list is idempotent. -/
theorem filter_ne_idem (l : List WebhookTarget) (x : WebhookTarget) :
    (l.filter (fun e => e != x)).filter (fun e => e != x)
      = l.filter (fun e => e != x) := by
  induction l with
  | nil => rfl
  | cons a l ih =>
    by_cases ha : a = x
    · simp [List.filter_cons, ha, ih]
    · simp [List.filter_cons, ha, ih]

/-- Helper: the unregister closure in branch form. -/
theorem applyUnregister_eq (m : Registry) (t : WebhookTarget) :
    applyUnregister m t =
      if (unregRemaining m t).length > 0 then mapSet m (unregKey t) (unregRemaining m t)
      else mapDelete m (unregKey t) := rfl

/-- C9: invoking the unregister closure twice leaves the registry in
exactly the state reached after invoking it once; the closure removes
only its own registered target instance — any other target at the same
path stays registered — and bindings at every other path are
untouched. -/
theorem unregister_idempotent_and_precise (m : Registry) (t e : WebhookTarget) (q : String) :
    applyUnregister (applyUnregister m t) t = applyUnregister m t
      ∧ (e ≠ unregTarget t →
          (e ∈ targetsAt (applyUnregister m t) (unregKey t) ↔ e ∈ targetsAt m (unregKey t)))
      ∧ (q ≠ unregKey t → mapGet (applyUnregister m t) q = mapGet m q) := by
  refine ⟨?_, ?_, ?_⟩
  · by_cases h : (unregRemaining m t).length > 0
    · rw [applyUnregister_eq m t, if_pos h, applyUnregister_eq]
      have hrem : unregRemaining (mapSet m (unregKey t) (unregRemaining m t)) t
          = unregRemaining m t := by
        unfold unregRemaining targetsAt
        rw [mapGet_mapSet_self]
        simp [filter_ne_idem (targetsAt m (unregKey t)) (unregTarget t), targetsAt]
      rw [hrem, if_pos h, mapSet_mapSet]
    · rw [applyUnregister_eq m t, if_neg h, applyUnregister_eq]
      have hrem : unregRemaining (mapDelete m (unregKey t)) t = [] := by
        unfold unregRemaining targetsAt
        rw [mapGet_mapDelete_self]
        rfl
      rw [hrem]
      simp only [List.length_nil, gt_iff_lt, Nat.lt_irrefl, if_false]
      exact mapDelete_mapDelete m (unregKey t)
  · intro he
    have hbe : (e != unregTarget t) = true := by simpa using he
    by_cases h : (unregRemaining m t).length > 0
    · rw [applyUnregister_eq m t, if_pos h]
      unfold targetsAt
      rw [mapGet_mapSet_self]
      simp only [Option.getD_some]
      unfold unregRemaining
      constructor
      · intro hmem
        exact (List.mem_filter.mp hmem).1
      · intro hmem
        exact List.mem_filter.mpr ⟨hmem, hbe⟩
    · rw [applyUnregister_eq m t, if_neg h]
      have hnil : unregRemaining m t = [] :=
        List.eq_nil_of_length_eq_zero (Nat.eq_zero_of_not_pos h)
      unfold targetsAt
      rw [mapGet_mapDelete_self]
      simp only [Option.getD_none, List.not_mem_nil, false_iff]
      intro hmem
      have : e ∈ unregRemaining m t := List.mem_filter.mpr ⟨hmem, hbe⟩
      rw [hnil] at this
      exact List.not_mem_nil e this
  · intro hq
    by_cases h : (unregRemaining m t).length > 0
    · rw [applyUnregister_eq m t, if_pos h, mapGet_mapSet_ne _ _ _ _ hq]
    · rw [applyUnregister_eq m t, if_neg h, mapGet_mapDelete_ne _ _ _ hq]

/-- Witness for the C9 theorem on a concrete registry holding two
targets at one path and one target at another path. -/
theorem unregister_idempotent_and_precise_witness :
    applyUnregister
        (applyUnregister
          [("/hook",
            [{ accountId := "a2", path := "/hook", secret := none, tag := 1 },
             { accountId := "a1", path := "/hook", secret := some "s", tag := 0 }]),
           ("/other", [{ accountId := "a3", path := "/other", secret := none, tag := 2 }])]
          { accountId := "a1", path := "/hook", secret := some "s", tag := 0 })
        { accountId := "a1", path := "/hook", secret := some "s", tag := 0 }
      = applyUnregister
          [("/hook",
            [{ accountId := "a2", path := "/hook", secret := none, tag := 1 },
             { accountId := "a1", path := "/hook", secret := some "s", tag := 0 }]),
           ("/other", [{ accountId := "a3", path := "/other", secret := none, tag := 2 }])]
          { accountId := "a1", path := "/hook", secret := some "s", tag := 0 }
      ∧ ({ accountId := "a2", path := "/hook", secret := none, tag := 1 : WebhookTarget }
            ∈ targetsAt
              (applyUnregister
                [("/hook",
                  [{ accountId := "a2", path := "/hook", secret := none, tag := 1 },
                   { accountId := "a1", path := "/hook", secret := some "s", tag := 0 }]),
                 ("/other", [{ accountId := "a3", path := "/other", secret := none, tag := 2 }])]
                { accountId := "a1", path := "/hook", secret := some "s", tag := 0 })
              (unregKey { accountId := "a1", path := "/hook", secret := some "s", tag := 0 })
          ↔ { accountId := "a2", path := "/hook", secret := none, tag := 1 : WebhookTarget }
              ∈ targetsAt
                [("/hook",
                  [{ accountId := "a2", path := "/hook", secret := none, tag := 1 },
                   { accountId := "a1", path := "/hook", secret := some "s", tag := 0 }]),
                 ("/other", [{ accountId := "a3", path := "/other", secret := none, tag := 2 }])]
                (unregKey { accountId := "a1", path := "/hook", secret := some "s", tag := 0 }))
      ∧ mapGet
          (applyUnregister
            [("/hook",
              [{ accountId := "a2", path := "/hook", secret := none, tag := 1 },
               { accountId := "a1", path := "/hook", secret := some "s", tag := 0 }]),
             ("/other", [{ accountId := "a3", path := "/other", secret := none, tag := 2 }])]
            { accountId := "a1", path := "/hook", secret := some "s", tag := 0 })
          "/other"
        = mapGet
            [("/hook",
              [{ accountId := "a2", path := "/hook", secret := none, tag := 1 },
               { accountId := "a1", path := "/hook", secret := some "s", tag := 0 }]),
             ("/other", [{ accountId := "a3", path := "/other", secret := none, tag := 2 }])]
            "/other" :=
  ⟨(unregister_idempotent_and_precise
      [("/hook",
        [{ accountId := "a2", path := "/hook", secret := none, tag := 1 },
         { accountId := "a1", path := "/hook", secret := some "s", tag := 0 }]),
       ("/other", [{ accountId := "a3", path := "/other", secret := none, tag := 2 }])]
      { accountId := "a1", path := "/hook", secret := some "s", tag := 0 }
      { accountId := "a2", path := "/hook", secret := none, tag := 1 } "/other").1,
   (unregister_idempotent_and_precise
      [("/hook",
        [{ accountId := "a2", path := "/hook", secret := none, tag := 1 },
         { accountId := "a1", path := "/hook", secret := some "s", tag := 0 }]),
       ("/other", [{ accountId := "a3", path := "/other", secret := none, tag := 2 }])]
      { accountId := "a1", path := "/hook", secret := some "s", tag := 0 }
      { accountId := "a2", path := "/hook", secret := none, tag := 1 } "/other").2.1
     (by decide),
   (unregister_idempotent_and_precise
      [("/hook",
        [{ accountId := "a2", path := "/hook", secret := none, tag := 1 },
         { accountId := "a1", path := "/hook", secret := some "s", tag := 0 }]),
       ("/other", [{ accountId := "a3", path := "/other", secret := none, tag := 2 }])]
      { accountId := "a1", path := "/hook", secret := some "s", tag := 0 }
      { accountId := "a2", path := "/hook", secret := none, tag := 1 } "/other").2.2
     (by decide)⟩

/-- Helper: under the invariant, every target stored at a key carries
that key as its path. -/
theorem targetsAt_path_eq : ∀ (m : Registry) (k : String), regInvB m = true →
    ∀ x ∈ targetsAt m k, x.path = k := by
  intro m
  induction m with
  | nil =>
    intro k _ x hx
    simp [targetsAt, mapGet] at hx
  | cons p m ih =>
    intro k hm x hx
    have hm' : (!p.2.isEmpty && p.2.all fun u => u.path == p.1) = true ∧ regInvB m = true := by
      simpa [regInvB] using hm
    by_cases hp : p.1 = k
    · have hx' : x ∈ p.2 := by simpa [targetsAt, mapGet, hp] using hx
      have hall : (p.2.all fun u => u.path == p.1) = true := by
        have hand := hm'.1
        rw [Bool.and_eq_true] at hand
        exact hand.2
      rw [List.all_eq_true] at hall
      have hpath := hall x hx'
      rw [beq_iff_eq] at hpath
      rw [hpath, hp]
    · have hx' : x ∈ targetsAt m k := by simpa [targetsAt, mapGet, hp] using hx
      exact ih k hm'.2 x hx'

/-- Helper: `mapSet` preserves the invariant when the new value is a
non-empty list of targets whose paths all equal the key. -/
theorem regInvB_mapSet (m : Registry) (k : String) (v : List WebhookTarget)
    (hm : regInvB m = true) (hv1 : v ≠ [])
    (hv2 : ∀ x ∈ v, x.path = k) : regInvB (mapSet m k v) = true := by
  induction m with
  | nil =>
    simp only [mapSet, regInvB, List.all_cons, List.all_nil, Bool.and_true]
    rw [Bool.and_eq_true]
    refine ⟨?_, ?_⟩
    · simpa using hv1
    · rw [List.all_eq_true]
      intro x hx
      rw [beq_iff_eq]
      exact hv2 x hx
  | cons p m ih =>
    have hm' : (!p.2.isEmpty && p.2.all fun u => u.path == p.1) = true ∧ regInvB m = true := by
      simpa [regInvB] using hm
    by_cases hp : p.1 = k
    · simp only [mapSet, hp, beq_self_eq_true, if_true]
      have hkv : (!v.isEmpty && v.all fun u => u.path == k) = true := by
        rw [Bool.and_eq_true]
        refine ⟨by simpa using hv1, ?_⟩
        rw [List.all_eq_true]
        intro x hx
        rw [beq_iff_eq]
        exact hv2 x hx
      simpa [regInvB] using And.intro hkv hm'.2
    · have hbp : (p.1 == k) = false := by simpa using hp
      simp only [mapSet, hbp, Bool.false_eq_true, if_false]
      simpa [regInvB] using And.intro hm'.1 (ih hm'.2)

/-- Helper: `mapDelete` preserves the invariant. -/
theorem regInvB_mapDelete (m : Registry) (k : String) (hm : regInvB m = true) :
    regInvB (mapDelete m k) = true := by
  induction m with
  | nil => rfl
  | cons p m ih =>
    have hm' : (!p.2.isEmpty && p.2.all fun u => u.path == p.1) = true ∧ regInvB m = true := by
      simpa [regInvB] using hm
    by_cases hp : p.1 = k
    · simpa [mapDelete, hp] using ih hm'.2
    · have hbp : (p.1 == k) = false := by simpa using hp
      simp only [mapDelete, hbp, Bool.false_eq_true, if_false]
      simpa [regInvB] using And.intro hm'.1 (ih hm'.2)

/-- Helper: registering a target preserves the invariant. -/
theorem regInvB_applyRegister (m : Registry) (t : WebhookTarget)
    (hm : regInvB m = true) : regInvB (applyRegister m t) = true := by
  unfold applyRegister
  apply regInvB_mapSet _ _ _ hm
  · simp
  · intro x hx
    rcases List.mem_append.mp hx with hx | hx
    · exact targetsAt_path_eq m _ hm x hx
    · rw [List.mem_singleton.mp hx]

/-- Helper: invoking an unregister closure preserves the invariant. -/
theorem regInvB_applyUnregister (m : Registry) (t : WebhookTarget)
    (hm : regInvB m = true) : regInvB (applyUnregister m t) = true := by
  rw [applyUnregister_eq]
  by_cases h : (unregRemaining m t).length > 0
  · rw [if_pos h]
    apply regInvB_mapSet _ _ _ hm
    · intro hnil
      rw [hnil] at h
      exact Nat.lt_irrefl 0 h
    · intro x hx
      exact targetsAt_path_eq m _ hm x (List.mem_of_mem_filter hx)
  · rw [if_neg h]
    exact regInvB_mapDelete m _ hm

/-- Helper: running any operation sequence from an invariant-satisfying
registry preserves the invariant. -/
theorem regInvB_runRegOps : ∀ (ops : List RegOp) (m : Registry), regInvB m = true →
    regInvB (runRegOps ops m) = true := by
  intro ops
  induction ops with
  | nil => intro m hm; exact hm
  | cons op ops ih =>
    intro m hm
    cases op with
    | reg t => exact ih _ (regInvB_applyRegister m t hm)
    | unreg t => exact ih _ (regInvB_applyUnregister m t hm)

/-- C10: after any sequence of register and unregister operations
starting from the empty registry, every path key present in the
registry maps to a non-empty target list (the unregister closure
deletes the key when the last target at a path is removed), and every
stored target's `path` field equals the registry key it is stored under
— the key `applyRegister` computes with `normalizeWebhookPath`. -/
theorem webhookRegistry_invariant (ops : List RegOp) :
    regInvB (runRegOps ops []) = true :=
  regInvB_runRegOps ops [] rfl

end ServerChanBot
